import Mathlib

/-!
# Verification of the Spotify/Neo4j ingestion core

Shallow embedding of the rate limiter (`backend/src/rate_limiter.rs`), the
Spotify provider client (`backend/src/spotify.rs`), the import pipeline
(`backend/src/handlers.rs`) and the graph store operations
(`src/neo4j_db.rs`), together with theorems settling the specification
claims about them.

Modelling conventions:
* `Instant` and `Duration` values are natural numbers of abstract ticks
  (milliseconds where a unit matters, e.g. in `calculate_backoff` which the
  source computes via `Duration::as_millis`).  `Instant::duration_since` and
  `Duration` subtraction become truncated `Nat` subtraction, matching the
  saturating Rust semantics on the in-range values considered here.
* `f64` values are modelled as rationals; every concrete value evaluated in
  a theorem below is exactly representable in `f64` and the corresponding
  `f64` computation is exact, so the embedding agrees with the source there.
  The `as u64` cast of a nonnegative `f64` is `Int.toNat ∘ Rat.floor`
  (truncation toward zero, saturating at 0 from below).
* Fallible code returns `Except`; HTTP endpoints are oracles passed in as
  functions.
-/

namespace SpotifyGraph

/-- Decidable equality for `Except`, used to evaluate fallible runs. -/
instance {α β : Type} [DecidableEq α] [DecidableEq β] :
    DecidableEq (Except α β) := fun x y =>
  match x, y with
  | .error a, .error b =>
    if h : a = b then .isTrue (by rw [h])
    else .isFalse (fun hc => h (Except.error.inj hc))
  | .ok a, .ok b =>
    if h : a = b then .isTrue (by rw [h])
    else .isFalse (fun hc => h (Except.ok.inj hc))
  | .error _, .ok _ => .isFalse (fun hc => Except.noConfusion hc)
  | .ok _, .error _ => .isFalse (fun hc => Except.noConfusion hc)

/-! ## Rate limiter (`backend/src/rate_limiter.rs`) -/

/-- `RateLimitConfig` (rate_limiter.rs lines 9-23).  Durations in ms. -/
structure RateLimitConfig where
  max_requests : Nat
  window_duration : Nat
  initial_backoff : Nat
  max_backoff : Nat
  backoff_multiplier : ℚ
  max_retries : Nat
deriving Repr, DecidableEq

/-- `RateLimitConfig::spotify_config` (lines 39-48). -/
def spotify_config : RateLimitConfig :=
  { max_requests := 100
    window_duration := 60000
    initial_backoff := 200
    max_backoff := 10000
    backoff_multiplier := 2
    max_retries := 3 }

/-- `RateLimitConfig::youtube_config` (lines 50-59). -/
def youtube_config : RateLimitConfig :=
  { max_requests := 100
    window_duration := 100000
    initial_backoff := 300
    max_backoff := 15000
    backoff_multiplier := 3/2
    max_retries := 3 }

/-- The purge loop at the head of `RequestTracker::check_rate_limit`
(lines 82-88): pop timestamps `t` with `now.duration_since(t) > window`
from the front of the queue. -/
def purgeOld (window now : Nat) (q : List Nat) : List Nat :=
  q.dropWhile (fun t => window < now - t)

/-- The admission decision of `RequestTracker::check_rate_limit`
(lines 90-98), taken on the already purged queue `q'`: when it still holds
at least `max_requests` entries and has a front element `oldest`, the
caller must wait `window_duration - (now - oldest)`. -/
def rate_limit_wait (maxReq window now : Nat) (q' : List Nat) : Option Nat :=
  if maxReq ≤ q'.length then
    match q'.head? with
    | some oldest => some (window - (now - oldest))
    | none => none
  else none

/-- `RequestTracker::check_rate_limit` (lines 78-99): purge, then decide.
Returns the mutated queue together with the required wait, if any. -/
def check_rate_limit (maxReq window now : Nat) (q : List Nat) :
    List Nat × Option Nat :=
  (purgeOld window now q,
    rate_limit_wait maxReq window now (purgeOld window now q))

/-- The time at which `execute` invokes the underlying operation after the
admission check of one loop iteration (lines 139-146): it sleeps for the
returned delay (if any) and then calls `request_fn`. -/
def admissionBeginTime (maxReq window now : Nat) (q : List Nat) : Nat :=
  now + ((check_rate_limit maxReq window now q).2.getD 0)

/-- The semaphore size chosen by `RateLimiter::new` (line 115):
`min(config.max_requests / 4, 10)` with no lower bound. -/
def maxConcurrent (max_requests : Nat) : Nat :=
  min (max_requests / 4) 10

/-- Modelled from the spec: the concurrency budget the specification
prescribes, `max(1, min(max_requests/4, 10))` (spec section 4.1); kept for
comparison against `maxConcurrent`. -/
def specConcurrencyBudget (max_requests : Nat) : Nat :=
  max 1 (min (max_requests / 4) 10)

/-- `calculate_backoff` (rate_limiter.rs lines 219-229).  All durations in
milliseconds: the source computes `initial.as_millis() as f64 *
multiplier.powi(attempt)`, truncates it to a whole number of milliseconds
with `as u64`, and clamps by `max_duration`. -/
def calculate_backoff (initial max_duration : Nat) (multiplier : ℚ)
    (attempt : Nat) : Nat :=
  let backoff_ms : ℚ := (initial : ℚ) * multiplier ^ attempt
  min ⌊backoff_ms⌋.toNat max_duration

/-- Modelled from the spec: the exact backoff formula of spec section 8,
`backoff(attempt) = min(initial × multiplier^attempt, max)`, as an exact
rational number of milliseconds; kept for comparison against
`calculate_backoff`. -/
def specBackoff (initial max_duration multiplier : ℚ) (attempt : Nat) : ℚ :=
  min (initial * multiplier ^ attempt) max_duration

/-- The retry loop of `RateLimiter::execute` (lines 137-180), with time and
the rate-limit wait abstracted away: `ok a` tells whether the request
closure succeeds on attempt number `a` (`0`-based).  Returns whether the
call finally succeeds together with the number of attempts it issued.
`remaining` counts the attempts still allowed after the current one, so the
top-level call passes `max_retries`. -/
def retryLoop (ok : Nat → Bool) : Nat → Nat → Bool × Nat
  | a, 0 => (ok a, 1)
  | a, r + 1 =>
    if ok a then (true, 1)
    else
      let rest := retryLoop ok (a + 1) r
      (rest.1, rest.2 + 1)

/-- Final outcome and number of HTTP attempts of one `RateLimiter::execute`
call whose closure succeeds exactly on the attempts where `ok` is true. -/
def execute_outcome (max_retries : Nat) (ok : Nat → Bool) : Bool × Nat :=
  retryLoop ok 0 max_retries

/-- Number of timestamps `RateLimiter::execute` records in the request
tracker (line 153): one on success, none on failure. -/
def execute_recorded (max_retries : Nat) (ok : Nat → Bool) : Nat :=
  if (execute_outcome max_retries ok).1 then 1 else 0

/-! ## `SpotifyClient::get_recommendations` call structure
(spotify.rs lines 294-339).  The single recommendations fetch is issued
with `self.client.get(&url)` directly (lines 318-322): it is sent exactly
once, is never retried, and is never recorded in the rate limiter's
tracker. -/

/-- Outcome and attempt count of the recommendations HTTP fetch: one direct
send whose result is the first answer of the oracle. -/
def get_recommendations_fetch (ok : Nat → Bool) : Bool × Nat :=
  (ok 0, 1)

/-- Number of timestamps the recommendations fetch records in the rate
limiter's tracker: none, since it bypasses `RateLimiter::execute`. -/
def get_recommendations_recorded (_ok : Nat → Bool) : Nat :=
  0

/-- The recommendations URL built by `get_recommendations`
(lines 302-316): base query with the comma-joined seeds and the limit, then
each present target hint appended in the order valence, energy,
danceability.  The `Option String` hints stand for the `Display` rendering
of the `Option<f64>` arguments. -/
def buildRecommendationsUrl (seed_tracks : List String) (limit : Int)
    (target_valence target_energy target_danceability : Option String) :
    String :=
  let url := "https://api.spotify.com/v1/recommendations?seed_tracks="
    ++ String.intercalate "," seed_tracks ++ "&limit=" ++ toString limit
  let url := match target_valence with
    | some v => url ++ "&target_valence=" ++ v
    | none => url
  let url := match target_energy with
    | some e => url ++ "&target_energy=" ++ e
    | none => url
  match target_danceability with
  | some d => url ++ "&target_danceability=" ++ d
  | none => url

/-! ## JSON values and the provider data model
(`backend/src/models.rs`, `backend/src/spotify.rs`) -/

/-- Minimal model of `serde_json::Value`.  Numbers are rationals; `f64` is
exact on every number a theorem below evaluates. -/
inductive Json where
  | null
  | bool (b : Bool)
  | num (q : ℚ)
  | str (s : String)
  | arr (items : List Json)
  | obj (fields : List (String × Json))

/-- `Value` string indexing (`value["key"]`): field lookup on objects,
`Null` on missing fields and on non-objects. -/
def Json.idx : Json → String → Json
  | .obj fields, k => ((fields.find? (fun f => f.1 == k)).map Prod.snd).getD .null
  | _, _ => .null

/-- `Value::as_str`. -/
def Json.as_str : Json → Option String
  | .str s => some s
  | _ => none

/-- `Value::as_f64` (any JSON number). -/
def Json.as_f64 : Json → Option ℚ
  | .num q => some q
  | _ => none

/-- `Value::as_i64` (integral JSON numbers). -/
def Json.as_i64 : Json → Option Int
  | .num q => if q.den = 1 then some q.num else none
  | _ => none

/-- `Value::as_bool`. -/
def Json.as_bool : Json → Option Bool
  | .bool b => some b
  | _ => none

/-- `Value::as_array`. -/
def Json.as_array : Json → Option (List Json)
  | .arr items => some items
  | _ => none

/-- `Value::as_object`, yielding the field list of the object. -/
def Json.as_object : Json → Option (List (String × Json))
  | .obj fields => some fields
  | _ => none

/-- Indexing into a `serde_json::Map<String, Value>` (the `track_data`
argument of `parse_track`).  Unlike `Value` indexing, `Map` indexing
panics on an absent key: `none` marks that panic. -/
def mget (td : List (String × Json)) (k : String) : Option Json :=
  (td.find? (fun f => f.1 == k)).map Prod.snd

/-- Outcome of a Rust computation that can panic besides returning
`Result`: `panics` is a process panic (an uncaught `index` on an absent
`Map` key), `err`/`ok` are the `Result` cases. -/
inductive RustResult (ε α : Type) where
  | panics
  | err (e : ε)
  | ok (a : α)
deriving DecidableEq, Repr

/-- The `i32` truncation (`as i32`) applied by `parse_track` to `i64`
values: two's-complement wrap-around. -/
def wrap32 (x : Int) : Int :=
  (x + 2 ^ 31) % 2 ^ 32 - 2 ^ 31

/-- `models.rs` `Track` (all 23 fields; `f64` as `ℚ`, `i32` as `Int`). -/
structure Track where
  id : String
  name : String
  artist_ids : List String
  artist_names : List String
  album_id : String
  album_name : String
  duration_ms : Int
  popularity : Int
  explicit : Bool
  danceability : ℚ
  energy : ℚ
  key : Int
  loudness : ℚ
  mode : Int
  speechiness : ℚ
  acousticness : ℚ
  instrumentalness : ℚ
  liveness : ℚ
  valence : ℚ
  tempo : ℚ
  time_signature : Int
  preview_url : Option String
deriving Repr, DecidableEq

/-- `models.rs` `Artist`. -/
structure Artist where
  id : String
  name : String
  genres : List String
  popularity : Int
  followers : Int
  image_url : Option String
deriving Repr, DecidableEq

/-- Outcome of the audio-features HTTP exchange for one track, after the
rate limiter's retries: the transport failed every attempt (`netErr`), a
success status arrived with a parsable (`ok (some _)`) or unparsable
(`ok none`) body, or a non-success status arrived (`notAvailable`). -/
inductive AudioResp where
  | netErr
  | ok (body : Option Json)
  | notAvailable

/-- `SpotifyClient::get_audio_features` (spotify.rs lines 207-227): a
transport failure or an unparsable success body is an error, a non-success
status degrades to an empty JSON object ("audio features not
available"). -/
def get_audio_features : AudioResp → Except String Json
  | .netErr => .error "Request failed"
  | .ok none => .error "JSON parse failed"
  | .ok (some body) => .ok body
  | .notAvailable => .ok (Json.obj [])

/-- `SpotifyClient::parse_track` (spotify.rs lines 156-205).  `featOf`
maps a track id to the outcome of its audio-features fetch; the `?` on
`get_audio_features` propagates its error.  Every `track_data["…"]`
access is a `Map` index and panics when the key is absent, in the
source's evaluation order: `id`, `name`, `artists`, `album`, then — only
after the audio-features fetch, while building the `Track` literal —
`duration_ms`, `popularity`, `explicit` and finally `preview_url`.
Present keys of the wrong type degrade (`unwrap_or` defaults), and a
present-but-non-string `id`/`name` is the `ok_or` error. -/
def parse_track (featOf : String → AudioResp)
    (track_data : List (String × Json)) : RustResult String Track :=
  match mget track_data "id" with
  | none => .panics
  | some idv =>
    match idv.as_str with
    | none => .err "Missing track id"
    | some id =>
      match mget track_data "name" with
      | none => .panics
      | some namev =>
        match namev.as_str with
        | none => .err "Missing track name"
        | some name =>
          match mget track_data "artists" with
          | none => .panics
          | some artistsv =>
            let artists := artistsv.as_array.getD []
            let artist_ids := artists.filterMap (fun a => (a.idx "id").as_str)
            let artist_names :=
              artists.filterMap (fun a => (a.idx "name").as_str)
            match mget track_data "album" with
            | none => .panics
            | some album =>
              let album_id := (album.idx "id").as_str.getD ""
              let album_name := (album.idx "name").as_str.getD ""
              match get_audio_features (featOf id) with
              | .error e => .err e
              | .ok audio =>
                match mget track_data "duration_ms" with
                | none => .panics
                | some durv =>
                  match mget track_data "popularity" with
                  | none => .panics
                  | some popv =>
                    match mget track_data "explicit" with
                    | none => .panics
                    | some explv =>
                      match mget track_data "preview_url" with
                      | none => .panics
                      | some prevv =>
                        .ok { id := id
                              name := name
                              artist_ids := artist_ids
                              artist_names := artist_names
                              album_id := album_id
                              album_name := album_name
                              duration_ms := wrap32 (durv.as_i64.getD 0)
                              popularity := wrap32 (popv.as_i64.getD 0)
                              explicit := explv.as_bool.getD false
                              danceability := (audio.idx "danceability").as_f64.getD 0
                              energy := (audio.idx "energy").as_f64.getD 0
                              key := wrap32 ((audio.idx "key").as_i64.getD 0)
                              loudness := (audio.idx "loudness").as_f64.getD 0
                              mode := wrap32 ((audio.idx "mode").as_i64.getD 0)
                              speechiness := (audio.idx "speechiness").as_f64.getD 0
                              acousticness := (audio.idx "acousticness").as_f64.getD 0
                              instrumentalness := (audio.idx "instrumentalness").as_f64.getD 0
                              liveness := (audio.idx "liveness").as_f64.getD 0
                              valence := (audio.idx "valence").as_f64.getD 0
                              tempo := (audio.idx "tempo").as_f64.getD 0
                              time_signature := wrap32 ((audio.idx "time_signature").as_i64.getD 4)
                              preview_url := prevv.as_str }

/-- Outcome of one playlist-page HTTP exchange, after the rate limiter's
retries: a fatal failure (transport error after all retries, non-success
status, or unparsable body — all returned as `Err` by the source) or a
parsed page body. -/
inductive PageResp where
  | err
  | ok (body : Json)

/-- The items of a page body: `data["items"].as_array().unwrap_or(&[])`
(spotify.rs lines 120-121). -/
def pageItems (body : Json) : List Json :=
  (body.idx "items").as_array.getD []

/-- The per-page track loop (spotify.rs lines 133-146): items carrying a
`track` object are parsed; parse *failures* (`Err`) are logged and
skipped, but a parse panic aborts the whole loop (`none`). -/
def parsePage (featOf : String → AudioResp) : List Json → Option (List Track)
  | [] => some []
  | item :: items =>
    match (item.idx "track").as_object with
    | none => parsePage featOf items
    | some td =>
      match parse_track featOf td with
      | .panics => none
      | .err _ => parsePage featOf items
      | .ok tr => (parsePage featOf items).map (fun rest => tr :: rest)

/-- The pagination loop of `SpotifyClient::get_playlist_tracks`
(spotify.rs lines 73-150).  `pages` maps an offset to the page outcome,
`limit` is the page size (50 in the source), `fuel` bounds the number of
iterations the model unrolls (the source loop is unbounded). -/
def get_playlist_tracks_loop (pages : Nat → PageResp)
    (featOf : String → AudioResp) (limit : Nat) :
    Nat → Nat → List Track → RustResult String (List Track)
  | 0, _, _ => .err "model fuel exhausted"
  | fuel + 1, offset, tracks =>
    match pages offset with
    | .err => .err "Failed to fetch playlist tracks"
    | .ok body =>
      if (pageItems body).isEmpty then .ok tracks
      else
        match parsePage featOf (pageItems body) with
        | none => .panics
        | some page_tracks =>
          get_playlist_tracks_loop pages featOf limit fuel (offset + limit)
            (tracks ++ page_tracks)

/-- `SpotifyClient::get_playlist_tracks` (spotify.rs lines 66-154),
starting at offset 0 with no tracks accumulated. -/
def get_playlist_tracks (pages : Nat → PageResp)
    (featOf : String → AudioResp) (limit fuel : Nat) :
    RustResult String (List Track) :=
  get_playlist_tracks_loop pages featOf limit fuel 0 []

/-- The tracks accumulated from `n` consecutive pages starting at
`offset` (spacing `limit`): the expected value of a playlist fetch that
sees `n` non-empty, panic-free pages and then an empty one. -/
def pagesTracks (pages : Nat → PageResp) (featOf : String → AudioResp)
    (limit : Nat) : Nat → Nat → List Track
  | 0, _ => []
  | n + 1, offset =>
    (match pages offset with
     | .ok body => (parsePage featOf (pageItems body)).getD []
     | .err => []) ++ pagesTracks pages featOf limit n (offset + limit)

/-- A page outcome that is a successful fetch with a non-empty item
list. -/
def goodNonempty : PageResp → Bool
  | .ok body => !(pageItems body).isEmpty
  | .err => false

/-- A page outcome that is a successful fetch with an empty item list
(the pagination terminal condition). -/
def goodEmpty : PageResp → Bool
  | .ok body => (pageItems body).isEmpty
  | .err => false

/-- A page outcome whose items parse without a panic (every item either
lacks a `track` object or carries all the keys `parse_track` indexes
unconditionally). -/
def pageParses (featOf : String → AudioResp) : PageResp → Bool
  | .ok body => (parsePage featOf (pageItems body)).isSome
  | .err => false

/-! ## Graph store (`src/neo4j_db.rs`)

The Neo4j graph is modelled as lists of nodes and edges; `MERGE`-by-id is
an upsert (overwrite the matched node's mutable fields, or append a new
node), `MATCH` on an absent node yields no rows (the dependent `MERGE` of
an edge then creates nothing).  The `updated_at = datetime()` property is
not modelled. -/

/-- `Track` node properties written by `store_track` (neo4j_db.rs
lines 62-100); `preview_url` is stored through `unwrap_or_default`. -/
structure TrackNode where
  id : String
  name : String
  duration_ms : Int
  popularity : Int
  explicit : Bool
  danceability : ℚ
  energy : ℚ
  key : Int
  loudness : ℚ
  mode : Int
  speechiness : ℚ
  acousticness : ℚ
  instrumentalness : ℚ
  liveness : ℚ
  valence : ℚ
  tempo : ℚ
  time_signature : Int
  preview_url : String
deriving Repr, DecidableEq

/-- The node written for a `Track` by `store_track`'s parameter list. -/
def Track.toNode (t : Track) : TrackNode :=
  { id := t.id
    name := t.name
    duration_ms := t.duration_ms
    popularity := t.popularity
    explicit := t.explicit
    danceability := t.danceability
    energy := t.energy
    key := t.key
    loudness := t.loudness
    mode := t.mode
    speechiness := t.speechiness
    acousticness := t.acousticness
    instrumentalness := t.instrumentalness
    liveness := t.liveness
    valence := t.valence
    tempo := t.tempo
    time_signature := t.time_signature
    preview_url := t.preview_url.getD "" }

/-- `Artist` node properties written by `store_artist` (lines 38-57). -/
structure ArtistNode where
  id : String
  name : String
  genres : List String
  popularity : Int
  followers : Int
  image_url : String
deriving Repr, DecidableEq

/-- The node written for an `Artist` by `store_artist`'s parameter list. -/
def Artist.toNode (a : Artist) : ArtistNode :=
  { id := a.id
    name := a.name
    genres := a.genres
    popularity := a.popularity
    followers := a.followers
    image_url := a.image_url.getD "" }

/-- `Album` node properties written by `store_track`'s album query. -/
structure AlbumNode where
  id : String
  name : String
deriving Repr, DecidableEq

/-- The graph store state: nodes per label, `PERFORMED` edges as
`(artist_id, track_id)` pairs, `CONTAINS` edges as
`(album_id, track_id)` pairs. -/
structure GraphDB where
  tracks : List TrackNode
  artists : List ArtistNode
  albums : List AlbumNode
  performed : List (String × String)
  contains : List (String × String)
deriving Repr, DecidableEq

/-- The empty store. -/
def GraphDB.empty : GraphDB :=
  { tracks := [], artists := [], albums := [], performed := [], contains := [] }

/-- `MERGE (t:Track {id}) SET …`: overwrite the node with that id, or
append it. -/
def upsertTrackNode (g : GraphDB) (n : TrackNode) : GraphDB :=
  if g.tracks.any (fun m => m.id == n.id) then
    { g with tracks := g.tracks.map (fun m => if m.id == n.id then n else m) }
  else
    { g with tracks := g.tracks ++ [n] }

/-- `MERGE (a:Artist {id}) SET …`. -/
def upsertArtistNode (g : GraphDB) (n : ArtistNode) : GraphDB :=
  if g.artists.any (fun m => m.id == n.id) then
    { g with artists := g.artists.map (fun m => if m.id == n.id then n else m) }
  else
    { g with artists := g.artists ++ [n] }

/-- `MERGE (al:Album {id}) SET al.name = …`. -/
def upsertAlbumNode (g : GraphDB) (n : AlbumNode) : GraphDB :=
  if g.albums.any (fun m => m.id == n.id) then
    { g with albums := g.albums.map (fun m => if m.id == n.id then n else m) }
  else
    { g with albums := g.albums ++ [n] }

/-- The `PERFORMED`-edge query of `store_track` (lines 106-113):
`MATCH (t:Track {id}), (a:Artist {id}) MERGE (a)-[:PERFORMED]->(t)` —
the edge is created only when both endpoints already exist, and `MERGE`
never duplicates it. -/
def mergePerformed (g : GraphDB) (artist_id track_id : String) : GraphDB :=
  if g.artists.any (fun a => a.id == artist_id) &&
      g.tracks.any (fun t => t.id == track_id) then
    if (artist_id, track_id) ∈ g.performed then g
    else { g with performed := g.performed ++ [(artist_id, track_id)] }
  else g

/-- The `CONTAINS`-edge part of `store_track`'s album query
(lines 118-127): after the album upsert, `MATCH (t:Track {id})` then
`MERGE (al)-[:CONTAINS]->(t)`. -/
def mergeContains (g : GraphDB) (album_id track_id : String) : GraphDB :=
  if g.tracks.any (fun t => t.id == track_id) then
    if (album_id, track_id) ∈ g.contains then g
    else { g with contains := g.contains ++ [(album_id, track_id)] }
  else g

/-- `store_track` (neo4j_db.rs lines 60-133): upsert the track node, then
try to create a `PERFORMED` edge for each listed artist id (silently
skipped when the artist node does not exist yet), then — if the album id
is non-empty — upsert the album node and its `CONTAINS` edge. -/
def store_track (g : GraphDB) (t : Track) : GraphDB :=
  let g1 := upsertTrackNode g t.toNode
  let g2 := t.artist_ids.foldl (fun g a => mergePerformed g a t.id) g1
  if t.album_id ≠ "" then
    mergeContains (upsertAlbumNode g2 { id := t.album_id, name := t.album_name })
      t.album_id t.id
  else g2

/-- `store_artist` (neo4j_db.rs lines 38-58). -/
def store_artist (g : GraphDB) (a : Artist) : GraphDB :=
  upsertArtistNode g a.toNode

/-! ## Similarity retrieval (`get_similar_tracks`, neo4j_db.rs
lines 214-278) -/

/-- The per-(candidate, seed) distance of the Cypher query:
`|Δvalence| + |Δenergy| + |Δdanceability| + |Δtempo|/200`. -/
def trackDist (t s : TrackNode) : ℚ :=
  |t.valence - s.valence| + |t.energy - s.energy| +
    |t.danceability - s.danceability| + |t.tempo - s.tempo| / 200

/-- `MATCH (seed:Track) WHERE seed.id IN $seed_ids`: the stored tracks
whose id is among the seed ids. -/
def seedNodes (g : GraphDB) (seed_ids : List String) : List TrackNode :=
  g.tracks.filter (fun t => decide (t.id ∈ seed_ids))

/-- The seeds a given candidate is paired with: `WHERE similar.id <>
seed.id` keeps every matched seed whose id differs from the candidate's. -/
def seedsOther (g : GraphDB) (seed_ids : List String) (t : TrackNode) :
    List TrackNode :=
  (seedNodes g seed_ids).filter (fun s => decide (s.id ≠ t.id))

/-- `avg(valence_diff + energy_diff + dance_diff + tempo_diff)` grouped by
candidate: the mean distance to the seeds with differing id. -/
def similarity_score (g : GraphDB) (seed_ids : List String) (t : TrackNode) :
    ℚ :=
  ((seedsOther g seed_ids t).map (fun s => trackDist t s)).sum /
    (seedsOther g seed_ids t).length

/-- The aggregation rows: every stored track paired with at least one seed
of differing id, with its score. -/
def scoredCandidates (g : GraphDB) (seed_ids : List String) :
    List (TrackNode × ℚ) :=
  (g.tracks.filter (fun t => !(seedsOther g seed_ids t).isEmpty)).map
    (fun t => (t, similarity_score g seed_ids t))

/-- The `ORDER BY similarity_score ASC` relation. -/
def scoreLE (a b : TrackNode × ℚ) : Prop :=
  a.2 ≤ b.2

instance : DecidableRel scoreLE :=
  fun a b => inferInstanceAs (Decidable (a.2 ≤ b.2))

instance : IsTotal (TrackNode × ℚ) scoreLE :=
  ⟨fun a b => le_total a.2 b.2⟩

instance : IsTrans (TrackNode × ℚ) scoreLE :=
  ⟨fun _ _ _ h1 h2 => le_trans h1 h2⟩

/-- The final `MATCH (similar)<-[:PERFORMED]-(a:Artist)` of the query: a
candidate row survives only if some `PERFORMED` edge with an existing
artist node points at it. -/
def hasPerformer (g : GraphDB) (t : TrackNode) : Bool :=
  g.performed.any (fun e =>
    e.2 == t.id && g.artists.any (fun a => a.id == e.1))

/-- `get_similar_tracks` (neo4j_db.rs lines 214-278): score the candidate
rows, sort ascending by score, truncate to `limit`, then resolve performer
edges (dropping candidates without one).  Ties keep the store order (the
source leaves tie order to the database). -/
def get_similar_tracks (g : GraphDB) (seed_ids : List String) (limit : Nat) :
    List TrackNode :=
  ((((scoredCandidates g seed_ids).insertionSort scoreLE).take limit).filter
    (fun p => hasPerformer g p.1)).map Prod.fst

/-- The ids of the stored track nodes. -/
def trackIds (g : GraphDB) : List String :=
  g.tracks.map (fun t => t.id)

/-! ## Import pipeline (`import_spotify_data`, handlers.rs lines 108-201) -/

/-- External collaborators of one import run: the artist endpoint (`none`
is a fetch failure) and the success of each graph write (a `false` store
aborts the import with an internal server error). -/
structure ImportEnv where
  fetchArtist : String → Option Artist
  storeTrackOk : String → Bool
  storeArtistOk : String → Bool

/-- Mutable state of the import loop: the graph, the two counters, the
artist dedup set (`processed_artists`, insertion-ordered), and the log of
artist ids passed to `get_artist` (for reasoning about refetches). -/
structure ImportState where
  g : GraphDB
  imported_tracks : Nat
  imported_artists : Nat
  processed : List String
  fetchLog : List String
deriving Repr, DecidableEq

/-- The initial state of a run over store `g0`. -/
def initState (g0 : GraphDB) : ImportState :=
  { g := g0, imported_tracks := 0, imported_artists := 0,
    processed := [], fetchLog := [] }

/-- The per-artist body of the import loop (handlers.rs lines 137-179):
skip ids already in `processed_artists`; otherwise fetch the artist — a
failure is only a warning — and on success store it, count it and mark it
processed; a failed store aborts the import. -/
def stepArtist (env : ImportEnv) (s : ImportState) (artist_id : String) :
    Except Unit ImportState :=
  if artist_id ∈ s.processed then .ok s
  else
    let s := { s with fetchLog := s.fetchLog ++ [artist_id] }
    match env.fetchArtist artist_id with
    | some artist =>
      if env.storeArtistOk artist_id then
        .ok { s with
          g := store_artist s.g artist
          imported_artists := s.imported_artists + 1
          processed := s.processed ++ [artist_id] }
      else .error ()
    | none => .ok s

/-- The per-track body of the import loop (handlers.rs lines 116-180):
store the track (fatal on failure), count it, then run the artist loop
over its performer ids. -/
def stepTrack (env : ImportEnv) (s : ImportState) (t : Track) :
    Except Unit ImportState :=
  if env.storeTrackOk t.id then
    List.foldlM (stepArtist env)
      { s with
        g := store_track s.g t
        imported_tracks := s.imported_tracks + 1 }
      t.artist_ids
  else .error ()

/-- The storage phase of `import_spotify_data` (handlers.rs
lines 108-201) over an already fetched track list, starting from store
`g0`. -/
def import_spotify_data (env : ImportEnv) (tracks : List Track)
    (g0 : GraphDB) : Except Unit ImportState :=
  List.foldlM (stepTrack env) (initState g0) tracks

/-- All performer ids of a track list, in encounter order (with
repetitions). -/
def allArtistIds (tracks : List Track) : List String :=
  tracks.flatMap (fun t => t.artist_ids)

/-! ## Example fixtures used by witnesses and counterexamples -/

/-- A track object carrying every key `parse_track` indexes on the
`Map` (so it parses without panicking); the non-core keys hold values
that merely degrade to defaults. -/
def tdFull : List (String × Json) :=
  [("id", Json.str "t1"), ("name", Json.str "Song"),
   ("artists", Json.arr []), ("album", Json.obj []),
   ("duration_ms", Json.null), ("popularity", Json.null),
   ("explicit", Json.null), ("preview_url", Json.null)]

/-- A track object whose core fields parse and which reaches the
audio-features fetch (the keys after it are indexed only later). -/
def tdCore : List (String × Json) :=
  [("id", Json.str "t1"), ("name", Json.str "Song"),
   ("artists", Json.arr []), ("album", Json.obj [])]

/-- A playlist item whose `track` object parses without panicking. -/
def itemEx : Json :=
  Json.obj [("track", Json.obj tdFull)]

/-- A playlist item whose `track` object has only `id` and `name`: the
source's `track_data["artists"]` `Map` index panics on it. -/
def itemPanic : Json :=
  Json.obj [("track",
    Json.obj [("id", Json.str "t1"), ("name", Json.str "Song")])]

/-- A two-page playlist: one well-formed item at offset 0, an empty page
at offset 50, errors elsewhere. -/
def pagesEx : Nat → PageResp :=
  fun offset =>
    if offset = 0 then .ok (Json.obj [("items", Json.arr [itemEx])])
    else if offset = 50 then .ok (Json.obj [("items", Json.arr [])])
    else .err

/-- Like `pagesEx`, but the only item is `itemPanic`. -/
def pagesPanic : Nat → PageResp :=
  fun offset =>
    if offset = 0 then .ok (Json.obj [("items", Json.arr [itemPanic])])
    else if offset = 50 then .ok (Json.obj [("items", Json.arr [])])
    else .err

/-- An audio-features oracle whose provider has no features for any track
(non-success status). -/
def featNone : String → AudioResp :=
  fun _ => .notAvailable

/-- A track with one performer, used by the import fixtures. -/
def trackEx : Track :=
  { id := "t1", name := "Song", artist_ids := ["a1"],
    artist_names := ["Artist One"], album_id := "", album_name := "",
    duration_ms := 0, popularity := 0, explicit := false,
    danceability := 0, energy := 0, key := 0, loudness := 0, mode := 0,
    speechiness := 0, acousticness := 0, instrumentalness := 0,
    liveness := 0, valence := 0, tempo := 0, time_signature := 4,
    preview_url := none }

/-- A track with two distinct performers `a1`, `a2`. -/
def trackEx2 : Track :=
  { trackEx with
    id := "t2"
    artist_ids := ["a1", "a2"]
    artist_names := ["Artist One", "Artist Two"] }

/-- A concrete artist answer for fetch oracles. -/
def artistEx : Artist :=
  { id := "a1", name := "Artist One", genres := [], popularity := 0,
    followers := 0, image_url := none }

/-- An import environment where every fetch and store succeeds
(the artist endpoint answers with an artist carrying the requested id). -/
def envAllOk : ImportEnv :=
  { fetchArtist := fun aid => some { artistEx with id := aid }
    storeTrackOk := fun _ => true
    storeArtistOk := fun _ => true }

/-- An import environment where the artist fetch fails exactly for `a2`
and every store succeeds. -/
def envFailA2 : ImportEnv :=
  { fetchArtist := fun aid =>
      if aid = "a2" then none else some { artistEx with id := aid }
    storeTrackOk := fun _ => true
    storeArtistOk := fun _ => true }

/-- A stored track node with the given id, valence/energy/danceability
`v` and tempo `bpm`; the remaining properties are fixed. -/
def mkNode (i : String) (v bpm : ℚ) : TrackNode :=
  { id := i, name := i, duration_ms := 0, popularity := 0,
    explicit := false, danceability := v, energy := v, key := 0,
    loudness := 0, mode := 0, speechiness := 0, acousticness := 0,
    instrumentalness := 0, liveness := 0, valence := v, tempo := bpm,
    time_signature := 4, preview_url := "" }

/-- A stored artist node for the similarity fixtures. -/
def artistNodeEx : ArtistNode :=
  { id := "x", name := "X", genres := [], popularity := 0, followers := 0,
    image_url := "" }

/-- Similarity counterexample store: two tracks `A`, `B` with identical
features, both used as seeds. -/
def gTwoSeeds : GraphDB :=
  { tracks := [mkNode "A" 0 0, mkNode "B" 0 0]
    artists := [artistNodeEx]
    albums := []
    performed := [("x", "A"), ("x", "B")]
    contains := [] }

/-- Similarity witness store: seed `S`, a candidate `Z` with the seed's
exact feature vector (score 0) and a candidate `B` with larger features
(score `|1−0|·3 + |200−0|/200 = 4`). -/
def gRanked : GraphDB :=
  { tracks := [mkNode "S" 0 0, mkNode "B" 1 200, mkNode "Z" 0 0]
    artists := [artistNodeEx]
    albums := []
    performed := [("x", "S"), ("x", "B"), ("x", "Z")]
    contains := [] }

/-- The state produced by importing `[trackEx]` into an empty store with
`envAllOk` (checked by evaluation in the C10 witness): the track node and
the artist node are stored, but no `PERFORMED` edge exists — the artist
node was created only after `store_track` tried to create the edge. -/
def sAfterOne : ImportState :=
  { g := { tracks := [trackEx.toNode]
           artists := [{ id := "a1", name := "Artist One", genres := [],
                         popularity := 0, followers := 0, image_url := "" }]
           albums := []
           performed := []
           contains := [] }
    imported_tracks := 1
    imported_artists := 1
    processed := ["a1"]
    fetchLog := ["a1"] }

/-! ## Theorems: C1, C2, C3 -/

theorem purgeOld_mem_le {window now : Nat} :
    ∀ {q : List Nat}, q.Sorted (· ≤ ·) →
      ∀ t ∈ purgeOld window now q, now - t ≤ window := by
  intro q
  induction q with
  | nil => intro _ t ht; simp [purgeOld] at ht
  | cons a q ih =>
    intro hs t ht
    rw [List.sorted_cons] at hs
    by_cases ha : window < now - a
    · rw [purgeOld, List.dropWhile_cons_of_pos (by simpa using ha)] at ht
      exact ih hs.2 t ht
    · rw [purgeOld, List.dropWhile_cons_of_neg (by simpa using ha)] at ht
      push_neg at ha
      rcases List.mem_cons.mp ht with rfl | htq
      · exact ha
      · exact le_trans (Nat.sub_le_sub_left (hs.1 t htq) now) ha

/-- C1: before each admission check, timestamps older than the window are
purged (every surviving timestamp is within `window` of `now`); when the
purged tracker still holds at least `max_requests` entries, `execute`
suspends for `window - (now - oldest)` and hence invokes the underlying
operation no earlier than `oldest + window`, i.e. only once a full window
has elapsed since the oldest counted call; when the tracker is below the
limit no wait is imposed. -/
theorem execute_window_enforcement (maxReq window now : Nat) (q : List Nat)
    (hsorted : q.Sorted (· ≤ ·)) (hpast : ∀ t ∈ q, t ≤ now) :
    (∀ t ∈ (check_rate_limit maxReq window now q).1, now - t ≤ window) ∧
    (∀ oldest, (check_rate_limit maxReq window now q).1.head? = some oldest →
      maxReq ≤ (check_rate_limit maxReq window now q).1.length →
      (check_rate_limit maxReq window now q).2 =
          some (window - (now - oldest)) ∧
        admissionBeginTime maxReq window now q = oldest + window) ∧
    ((check_rate_limit maxReq window now q).1.length < maxReq →
      (check_rate_limit maxReq window now q).2 = none) := by
  have hmem : ∀ t ∈ (check_rate_limit maxReq window now q).1, now - t ≤ window :=
    purgeOld_mem_le hsorted
  have hfst : (check_rate_limit maxReq window now q).1 = purgeOld window now q :=
    rfl
  refine ⟨hmem, ?_, ?_⟩
  · intro oldest hhead hlen
    have holdmem : oldest ∈ (check_rate_limit maxReq window now q).1 :=
      List.mem_of_mem_head? hhead
    rw [hfst] at hhead hlen
    have hwin : now - oldest ≤ window := hmem oldest holdmem
    have hpastold : oldest ≤ now := by
      have hq : oldest ∈ q :=
        (List.dropWhile_sublist _).subset holdmem
      exact hpast oldest hq
    have h2 : (check_rate_limit maxReq window now q).2 =
        some (window - (now - oldest)) := by
      show rate_limit_wait maxReq window now (purgeOld window now q) = _
      rw [rate_limit_wait, if_pos hlen]
      rw [show (purgeOld window now q).head? = some oldest from hhead]
    refine ⟨h2, ?_⟩
    unfold admissionBeginTime
    rw [h2]
    simp only [Option.getD_some]
    omega
  · intro hlt
    rw [hfst] at hlt
    show rate_limit_wait maxReq window now (purgeOld window now q) = none
    rw [rate_limit_wait, if_neg (by omega)]

/-- Witness for C1 at a concrete tracker state: window 10, limit 2,
queue `[3, 6, 8]` at `now = 15`.  The entry `3` is purged (15 − 3 > 10),
the tracker is full (2 entries), oldest counted call is `6`, the wait is
`10 − (15 − 6) = 1` and the operation begins at `16 = 6 + 10`. -/
theorem execute_window_enforcement_witness :
    (∀ t ∈ (check_rate_limit 2 10 15 [3, 6, 8]).1, 15 - t ≤ 10) ∧
      (check_rate_limit 2 10 15 [3, 6, 8]).2 = some 1 ∧
      admissionBeginTime 2 10 15 [3, 6, 8] = 6 + 10 := by
  have h := execute_window_enforcement 2 10 15 [3, 6, 8]
    (by decide) (by decide)
  refine ⟨h.1, ?_, ?_⟩
  · have := (h.2.1 6 (by decide) (by decide)).1
    simpa using this
  · exact (h.2.1 6 (by decide) (by decide)).2

/-- C2 (code bug): `RateLimiter::new` sizes the semaphore as
`min(max_requests / 4, 10)` with no lower bound, so the configuration of
the crate's own `test_rate_limiter_basic` (`max_requests = 2`) yields 0
permits — every `execute` call blocks forever — whereas the claimed budget
`max(1, min(max_requests/4, 10))` is 1.  For `max_requests ≥ 4` the two
agree. -/
theorem maxConcurrent_zero_at_test_config :
    maxConcurrent 2 = 0 ∧ specConcurrencyBudget 2 = 1 ∧
      maxConcurrent 2 ≠ specConcurrencyBudget 2 ∧
      maxConcurrent 100 = 10 ∧ specConcurrencyBudget 100 = 10 := by
  decide

/-- C3 counterexample: with the YouTube configuration's multiplier 1.5,
initial backoff 300 ms and cap 15 s, attempt 3 nominally yields
300 × 1.5³ = 1012.5 ms, but `calculate_backoff` truncates the `f64`
product with `as u64` and returns 1012 ms — not equal to the exact
`min(initial × multiplier^attempt, max)` of the claim. -/
theorem calculate_backoff_truncates :
    calculate_backoff 300 15000 (3/2) 3 = 1012 ∧
      specBackoff 300 15000 (3/2) 3 = 2025/2 ∧
      (calculate_backoff 300 15000 (3/2) 3 : ℚ) ≠
        specBackoff 300 15000 (3/2) 3 := by
  have hprod : (300 : ℚ) * (3/2) ^ 3 = 2025/2 := by norm_num
  have hfloor : (⌊(2025/2 : ℚ)⌋ : ℤ) = 1012 := by
    rw [Int.floor_eq_iff]
    norm_num
  have h1 : calculate_backoff 300 15000 (3/2) 3 = 1012 := by
    rw [calculate_backoff]
    simp only [Nat.cast_ofNat, hprod, hfloor]
    decide
  have h2 : specBackoff 300 15000 (3/2) 3 = 2025/2 := by
    rw [specBackoff, hprod, min_eq_left (by norm_num)]
  refine ⟨h1, h2, ?_⟩
  rw [h1, h2]
  norm_num

/-- C3 (amended): the delay computed by `calculate_backoff` is
`min(⌊initial × multiplier^attempt⌋, max_backoff)` in whole milliseconds;
whenever the nominal product is a whole number `n` of milliseconds (as in
every configuration with an integer multiplier) this equals the exact
`min(initial × multiplier^attempt, max)` of the spec.  Concretely, with
initial 100 ms, multiplier 2.0 and cap 10 s, attempts 0 and 1 give 100 ms
and 200 ms, and with cap 150 ms attempt 2 (nominally 400 ms) clamps to
150 ms. -/
theorem calculate_backoff_spec :
    (∀ (initial max_duration : Nat) (multiplier : ℚ) (attempt n : Nat),
        (initial : ℚ) * multiplier ^ attempt = (n : ℚ) →
        calculate_backoff initial max_duration multiplier attempt =
          min n max_duration ∧
        (calculate_backoff initial max_duration multiplier attempt : ℚ) =
          specBackoff initial max_duration multiplier attempt) ∧
      calculate_backoff 100 10000 2 0 = 100 ∧
      calculate_backoff 100 10000 2 1 = 200 ∧
      calculate_backoff 100 150 2 2 = 150 := by
  have gen : ∀ (initial max_duration : Nat) (multiplier : ℚ) (attempt n : Nat),
      (initial : ℚ) * multiplier ^ attempt = (n : ℚ) →
      calculate_backoff initial max_duration multiplier attempt =
        min n max_duration ∧
      (calculate_backoff initial max_duration multiplier attempt : ℚ) =
        specBackoff initial max_duration multiplier attempt := by
    intro initial max_duration multiplier attempt n h
    have hfloor : (⌊(initial : ℚ) * multiplier ^ attempt⌋ : ℤ) = (n : ℤ) := by
      rw [h]
      exact Int.floor_natCast n
    have hcb : calculate_backoff initial max_duration multiplier attempt =
        min n max_duration := by
      rw [calculate_backoff]
      simp only [hfloor, Int.toNat_natCast]
    refine ⟨hcb, ?_⟩
    rw [hcb, specBackoff, h]
    push_cast
    rfl
  refine ⟨gen, ?_, ?_, ?_⟩
  · have h := (gen 100 10000 2 0 100 (by norm_num)).1
    rw [h, min_eq_left (by norm_num)]
  · have h := (gen 100 10000 2 1 200 (by norm_num)).1
    rw [h, min_eq_left (by norm_num)]
  · have h := (gen 100 150 2 2 400 (by norm_num)).1
    rw [h, min_eq_right (by norm_num)]

/-- Witness for C3's amended theorem at initial 100 ms, multiplier 2,
attempt 1, cap 10 s: the nominal product is the whole number 200 and the
computed backoff is `min 200 10000 = 200`. -/
theorem calculate_backoff_spec_witness :
    ((100 : ℚ) * 2 ^ 1 = ((200 : Nat) : ℚ)) ∧
      calculate_backoff 100 10000 2 1 = min 200 10000 := by
  refine ⟨by norm_num, ?_⟩
  exact (calculate_backoff_spec.1 100 10000 2 1 200 (by norm_num)).1

/-! ## Theorems: C4, C5, C6 -/

/-- C4 counterexample: `get_recommendations` does not perform its HTTP
fetch through `RateLimiter::execute` — it issues one direct send
(spotify.rs lines 318-322).  With a request that fails on its first
attempt and succeeds on retry, going through `execute` (Spotify config,
3 retries) would succeed after 2 attempts and record the request in the
tracker; `get_recommendations` instead fails after its single attempt and
records nothing. -/
theorem get_recommendations_bypasses_rate_limiter :
    get_recommendations_fetch (fun a => decide (1 ≤ a)) = (false, 1) ∧
      execute_outcome spotify_config.max_retries (fun a => decide (1 ≤ a)) =
        (true, 2) ∧
      get_recommendations_recorded (fun a => decide (1 ≤ a)) = 0 ∧
      execute_recorded spotify_config.max_retries (fun a => decide (1 ≤ a)) = 1 ∧
      ¬ (∀ ok : Nat → Bool,
          get_recommendations_fetch ok =
              execute_outcome spotify_config.max_retries ok ∧
            get_recommendations_recorded ok =
              execute_recorded spotify_config.max_retries ok) := by
  refine ⟨by decide, by decide, by decide, by decide, ?_⟩
  intro h
  have := (h (fun a => decide (1 ≤ a))).1
  revert this
  decide

/-- C4 (amended): `get_recommendations` performs its single
recommendations fetch directly on the HTTP client — exactly one send whose
outcome is the first attempt's answer, with nothing recorded in the rate
limiter's tracker, so it is not subject to window admission or
retry/backoff — and the optional valence/energy/danceability target hints
are appended to the query URL as constraints, in that order. -/
theorem get_recommendations_direct_single_fetch :
    ∀ (ok : Nat → Bool) (seeds : List String) (limit : Int) (v e d : String),
      get_recommendations_fetch ok = (ok 0, 1) ∧
        get_recommendations_recorded ok = 0 ∧
        buildRecommendationsUrl seeds limit (some v) (some e) (some d) =
          buildRecommendationsUrl seeds limit none none none ++
            "&target_valence=" ++ v ++ "&target_energy=" ++ e ++
            "&target_danceability=" ++ d := by
  intro ok seeds limit v e d
  exact ⟨rfl, rfl, rfl⟩

/-- C5 counterexample: a *failed* audio-feature fetch does fail the track.
On a playlist item whose core track fields parse (and which reaches the
audio-features fetch, `tdCore`), a transport-level audio-features failure
(after all retries) propagates through the `?` in `parse_track`
(spotify.rs line 179), which returns `Err` instead of defaulting the
features. -/
theorem parse_track_fetch_failure_fails_track :
    parse_track (fun _ => AudioResp.netErr) tdCore =
      .err "Request failed" := by
  rfl

/-- C5 (amended): when the provider has no audio features for a track
(non-success status on the audio-features endpoint), the track still
parses: for every playlist item whose core track fields parse — `id` and
`name` present as strings, and every other key `parse_track` indexes
unconditionally (`artists`, `album`, `duration_ms`, `popularity`,
`explicit`, `preview_url`) present, since a missing one panics the
process — `parse_track` returns `Ok` with all nine audio-feature scalars
(danceability, energy, valence, acousticness, instrumentalness,
liveness, speechiness, loudness, tempo) defaulted to 0.0.  A transport
failure or unparsable success body, by contrast, propagates as an error
(see the counterexample). -/
theorem parse_track_missing_features_defaults
    (td : List (String × Json)) (id name : String)
    (hid : (mget td "id").bind Json.as_str = some id)
    (hname : (mget td "name").bind Json.as_str = some name)
    (hart : (mget td "artists").isSome = true)
    (halb : (mget td "album").isSome = true)
    (hdur : (mget td "duration_ms").isSome = true)
    (hpop : (mget td "popularity").isSome = true)
    (hexp : (mget td "explicit").isSome = true)
    (hprev : (mget td "preview_url").isSome = true) :
    ∃ tr, parse_track (fun _ => AudioResp.notAvailable) td = .ok tr ∧
      tr.id = id ∧ tr.name = name ∧
      tr.danceability = 0 ∧ tr.energy = 0 ∧ tr.valence = 0 ∧
      tr.acousticness = 0 ∧ tr.instrumentalness = 0 ∧ tr.liveness = 0 ∧
      tr.speechiness = 0 ∧ tr.loudness = 0 ∧ tr.tempo = 0 := by
  obtain ⟨idv, hidm, hids⟩ := Option.bind_eq_some.mp hid
  obtain ⟨namev, hnamem, hnames⟩ := Option.bind_eq_some.mp hname
  obtain ⟨artv, hartv⟩ := Option.isSome_iff_exists.mp hart
  obtain ⟨albv, halbv⟩ := Option.isSome_iff_exists.mp halb
  obtain ⟨durv, hdurv⟩ := Option.isSome_iff_exists.mp hdur
  obtain ⟨popv, hpopv⟩ := Option.isSome_iff_exists.mp hpop
  obtain ⟨explv, hexpv⟩ := Option.isSome_iff_exists.mp hexp
  obtain ⟨prevv, hprevv⟩ := Option.isSome_iff_exists.mp hprev
  simp only [parse_track, hidm, hids, hnamem, hnames, hartv, halbv,
    get_audio_features, hdurv, hpopv, hexpv, hprevv]
  exact ⟨_, rfl, rfl, rfl, rfl, rfl, rfl, rfl, rfl, rfl, rfl, rfl, rfl⟩

/-- Witness for C5's amended theorem on the concrete item `tdFull`
(`id = "t1"`, `name = "Song"`, all unconditionally indexed keys present):
parsing succeeds and the features are zero. -/
theorem parse_track_missing_features_defaults_witness :
    (mget tdFull "id").bind Json.as_str = some "t1" ∧
      (mget tdFull "artists").isSome = true ∧
      ∃ tr, parse_track (fun _ => AudioResp.notAvailable) tdFull = .ok tr ∧
        tr.id = "t1" ∧ tr.name = "Song" ∧
        tr.danceability = 0 ∧ tr.energy = 0 ∧ tr.valence = 0 ∧
        tr.acousticness = 0 ∧ tr.instrumentalness = 0 ∧ tr.liveness = 0 ∧
        tr.speechiness = 0 ∧ tr.loudness = 0 ∧ tr.tempo = 0 := by
  refine ⟨rfl, rfl, ?_⟩
  exact parse_track_missing_features_defaults tdFull "t1" "Song"
    rfl rfl rfl rfl rfl rfl rfl rfl

theorem get_playlist_tracks_loop_spec (pages : Nat → PageResp)
    (featOf : String → AudioResp) (limit : Nat) :
    ∀ (n fuel offset : Nat) (tracks : List Track), n < fuel →
      (∀ k < n, goodNonempty (pages (offset + k * limit)) = true) →
      (∀ k < n, pageParses featOf (pages (offset + k * limit)) = true) →
      goodEmpty (pages (offset + n * limit)) = true →
      get_playlist_tracks_loop pages featOf limit fuel offset tracks =
        .ok (tracks ++ pagesTracks pages featOf limit n offset) := by
  intro n
  induction n with
  | zero =>
    intro fuel offset tracks hfuel _ _ hempty
    match fuel, hfuel with
    | fuel + 1, _ =>
      rw [get_playlist_tracks_loop]
      simp only [Nat.zero_mul, Nat.add_zero] at hempty
      cases hp : pages offset with
      | err => rw [hp] at hempty; exact absurd hempty (by simp [goodEmpty])
      | ok body =>
        rw [hp] at hempty
        simp only [goodEmpty] at hempty
        dsimp only
        rw [if_pos hempty]
        simp [pagesTracks]
  | succ n ih =>
    intro fuel offset tracks hfuel hgood hparse hempty
    match fuel, hfuel with
    | fuel + 1, hfuel =>
      have h0 : goodNonempty (pages offset) = true := by
        have := hgood 0 (Nat.succ_pos n)
        simpa using this
      have hp0 : pageParses featOf (pages offset) = true := by
        have := hparse 0 (Nat.succ_pos n)
        simpa using this
      rw [get_playlist_tracks_loop]
      cases hp : pages offset with
      | err => rw [hp] at h0; exact absurd h0 (by simp [goodNonempty])
      | ok body =>
        rw [hp] at h0 hp0
        simp only [goodNonempty, Bool.not_eq_true'] at h0
        simp only [pageParses] at hp0
        obtain ⟨pts, hpts⟩ := Option.isSome_iff_exists.mp hp0
        dsimp only
        rw [if_neg (by simp [h0]), hpts]
        dsimp only
        have hgood' : ∀ k < n,
            goodNonempty (pages (offset + limit + k * limit)) = true := by
          intro k hk
          have := hgood (k + 1) (Nat.succ_lt_succ hk)
          have harith : offset + (k + 1) * limit = offset + limit + k * limit := by
            ring
          rwa [harith] at this
        have hparse' : ∀ k < n,
            pageParses featOf (pages (offset + limit + k * limit)) = true := by
          intro k hk
          have := hparse (k + 1) (Nat.succ_lt_succ hk)
          have harith : offset + (k + 1) * limit = offset + limit + k * limit := by
            ring
          rwa [harith] at this
        have hempty' : goodEmpty (pages (offset + limit + n * limit)) = true := by
          have harith : offset + (n + 1) * limit = offset + limit + n * limit := by
            ring
          rwa [harith] at hempty
        rw [ih fuel (offset + limit) _ (Nat.lt_of_succ_lt_succ hfuel) hgood'
          hparse' hempty']
        rw [pagesTracks, hp]
        dsimp only
        rw [hpts]
        simp [List.append_assoc]

/-- C6 (amended): if the provider returns successful non-empty pages at
offsets `0, limit, …, (n−1)·limit` whose items all parse without
panicking (each item either lacks a `track` object or carries every key
`parse_track` indexes unconditionally), and a successful page with an
empty item list at offset `n·limit`, then `get_playlist_tracks` (for any
page size `limit` and any fuel large enough to reach that page)
terminates at the first empty page and returns `Ok` with exactly the
tracks accumulated from the `n` earlier pages — the empty page is a
terminal condition, not an error.  Without the panic-freeness condition
the loop does not return `Ok` at all (see the counterexample). -/
theorem get_playlist_tracks_stops_at_empty_page (pages : Nat → PageResp)
    (featOf : String → AudioResp) (limit n fuel : Nat)
    (hgood : ∀ k < n, goodNonempty (pages (k * limit)) = true)
    (hparse : ∀ k < n, pageParses featOf (pages (k * limit)) = true)
    (hempty : goodEmpty (pages (n * limit)) = true)
    (hfuel : n < fuel) :
    get_playlist_tracks pages featOf limit fuel =
      .ok (pagesTracks pages featOf limit n 0) := by
  have h := get_playlist_tracks_loop_spec pages featOf limit n fuel 0 [] hfuel
    (by simpa using hgood) (by simpa using hparse) (by simpa using hempty)
  simpa [get_playlist_tracks] using h

/-- Witness for C6 on the concrete two-page playlist `pagesEx` (one
well-formed item on the first page, empty second page) with page size 50:
the fetch stops at the empty page and returns the one track parsed from
the first page. -/
theorem get_playlist_tracks_stops_at_empty_page_witness :
    (∀ k < 1, goodNonempty (pagesEx (k * 50)) = true) ∧
      (∀ k < 1, pageParses featNone (pagesEx (k * 50)) = true) ∧
      goodEmpty (pagesEx (1 * 50)) = true ∧
      get_playlist_tracks pagesEx featNone 50 2 =
        .ok (pagesTracks pagesEx featNone 50 1 0) ∧
      (pagesTracks pagesEx featNone 50 1 0).map Track.id = ["t1"] := by
  refine ⟨?_, ?_, by decide, ?_, by decide⟩
  · intro k hk
    have hk0 : k = 0 := Nat.lt_one_iff.mp hk
    subst hk0
    decide
  · intro k hk
    have hk0 : k = 0 := Nat.lt_one_iff.mp hk
    subst hk0
    decide
  · exact get_playlist_tracks_stops_at_empty_page pagesEx featNone 50 1 2
      (by intro k hk; have hk0 : k = 0 := Nat.lt_one_iff.mp hk; subst hk0; decide)
      (by intro k hk; have hk0 : k = 0 := Nat.lt_one_iff.mp hk; subst hk0; decide)
      (by decide) (by omega)

/-- C6 counterexample: a playlist whose provider does eventually return a
page with an empty item list (offset 50) but whose first page holds an
item missing the `artists` key.  The source's
`track_data["artists"]` `Map` index (spotify.rs line 161) panics on it,
so the real loop crashes instead of returning `Ok` with the accumulated
tracks — refuting the claim as stated, which promises `Ok` for every such
playlist. -/
theorem get_playlist_tracks_panics_on_malformed_item :
    goodNonempty (pagesPanic 0) = true ∧
      goodEmpty (pagesPanic (1 * 50)) = true ∧
      get_playlist_tracks pagesPanic featNone 50 2 = .panics ∧
      ∀ tracks, get_playlist_tracks pagesPanic featNone 50 2 ≠ .ok tracks := by
  refine ⟨by decide, by decide, by decide, ?_⟩
  intro tracks h
  have heval : get_playlist_tracks pagesPanic featNone 50 2 = .panics := by
    decide
  rw [heval] at h
  exact RustResult.noConfusion h

/-! ## Helper lemmas for the import pipeline -/

theorem exBind_ok {α β : Type} (x : α) (f : α → Except Unit β) :
    (Except.ok x >>= f) = f x :=
  rfl

theorem exBind_error {α β : Type} (f : α → Except Unit β) :
    ((Except.error () : Except Unit α) >>= f) = Except.error () :=
  rfl

theorem store_artist_tracks (g : GraphDB) (a : Artist) :
    (store_artist g a).tracks = g.tracks := by
  unfold store_artist upsertArtistNode
  split
  · rfl
  · rfl

theorem mergePerformed_tracks (g : GraphDB) (a t : String) :
    (mergePerformed g a t).tracks = g.tracks := by
  unfold mergePerformed
  split
  · split
    · rfl
    · rfl
  · rfl

theorem foldMergePerformed_tracks (t : String) :
    ∀ (ids : List String) (g : GraphDB),
      (ids.foldl (fun g a => mergePerformed g a t) g).tracks = g.tracks := by
  intro ids
  induction ids with
  | nil => intro g; rfl
  | cons a ids ih =>
    intro g
    rw [List.foldl_cons, ih, mergePerformed_tracks]

theorem mergeContains_tracks (g : GraphDB) (al t : String) :
    (mergeContains g al t).tracks = g.tracks := by
  unfold mergeContains
  split
  · split
    · rfl
    · rfl
  · rfl

theorem upsertAlbumNode_tracks (g : GraphDB) (n : AlbumNode) :
    (upsertAlbumNode g n).tracks = g.tracks := by
  unfold upsertAlbumNode
  split
  · rfl
  · rfl

theorem store_track_tracks (g : GraphDB) (t : Track) :
    (store_track g t).tracks = (upsertTrackNode g t.toNode).tracks := by
  unfold store_track
  split
  · rw [mergeContains_tracks, upsertAlbumNode_tracks, foldMergePerformed_tracks]
  · rw [foldMergePerformed_tracks]

theorem mem_trackIds_upsert (g : GraphDB) (n : TrackNode) :
    n.id ∈ trackIds (upsertTrackNode g n) ∧
      ∀ x ∈ trackIds g, x ∈ trackIds (upsertTrackNode g n) := by
  unfold upsertTrackNode
  split
  · rename_i hany
    have hids : trackIds { g with
        tracks := g.tracks.map (fun m => if m.id == n.id then n else m) } =
        trackIds g := by
      unfold trackIds
      dsimp only
      rw [List.map_map]
      refine List.map_congr_left ?_
      intro m _
      by_cases hm : m.id == n.id
      · simp only [Function.comp_apply, if_pos hm]
        exact (eq_of_beq hm).symm
      · simp only [Function.comp_apply, if_neg hm]
    rw [hids]
    constructor
    · rcases List.any_eq_true.mp hany with ⟨m, hmem, hid⟩
      have : n.id = m.id := (eq_of_beq hid).symm
      rw [this]
      exact List.mem_map_of_mem _ hmem
    · intro x hx; exact hx
  · constructor
    · unfold trackIds
      dsimp only
      rw [List.map_append]
      exact List.mem_append_right _ (List.mem_singleton.mpr rfl)
    · intro x hx
      unfold trackIds at hx ⊢
      dsimp only
      rw [List.map_append]
      exact List.mem_append_left _ hx

theorem mem_trackIds_store_track (g : GraphDB) (t : Track) :
    t.id ∈ trackIds (store_track g t) ∧
      ∀ x ∈ trackIds g, x ∈ trackIds (store_track g t) := by
  have h := mem_trackIds_upsert g t.toNode
  have hid : t.toNode.id = t.id := rfl
  have htr : trackIds (store_track g t) =
      trackIds (upsertTrackNode g t.toNode) := by
    unfold trackIds
    rw [store_track_tracks]
  rw [htr]
  exact ⟨hid ▸ h.1, h.2⟩

/-- Characterization of a successful run of the per-track artist loop
(handlers.rs lines 137-179): the graph's track nodes and the track counter
are untouched, and the loop appends to `processed_artists` exactly one
entry per newly seen artist id that was fetched and stored successfully,
incrementing `imported_artists` alongside; an id kept failing by the fetch
oracle is fetched once per occurrence. -/
theorem foldArtists_spec (env : ImportEnv) :
    ∀ (ids : List String) (s0 s : ImportState),
      List.foldlM (stepArtist env) s0 ids = .ok s →
      s.g.tracks = s0.g.tracks ∧
      s.imported_tracks = s0.imported_tracks ∧
      ∃ d, s.processed = s0.processed ++ d ∧
        s.imported_artists = s0.imported_artists + d.length ∧
        d.Nodup ∧
        (∀ a ∈ d, a ∉ s0.processed ∧ (env.fetchArtist a).isSome = true ∧
          env.storeArtistOk a = true) ∧
        (∀ a, a ∈ s.processed ↔ a ∈ s0.processed ∨
          (a ∈ ids ∧ (env.fetchArtist a).isSome = true)) ∧
        (∀ a, env.fetchArtist a = none → a ∉ s0.processed →
          s.fetchLog.count a = s0.fetchLog.count a + ids.count a) := by
  intro ids
  induction ids with
  | nil =>
    intro s0 s h
    rw [List.foldlM_nil] at h
    have hs : s0 = s := by
      have : (Except.ok s0 : Except Unit ImportState) = .ok s := h
      exact Except.ok.inj this
    subst hs
    refine ⟨rfl, rfl, [], by simp, by simp, by simp, by simp, ?_, by simp⟩
    intro a
    simp
  | cons a ids ih =>
    intro s0 s h
    rw [List.foldlM_cons] at h
    by_cases hmem : a ∈ s0.processed
    · have hsa : stepArtist env s0 a = .ok s0 := by
        rw [stepArtist, if_pos hmem]
      rw [hsa, exBind_ok] at h
      obtain ⟨htr, hit, d, hproc, himp, hnd, hdprop, hmemiff, hcount⟩ := ih s0 s h
      refine ⟨htr, hit, d, hproc, himp, hnd, hdprop, ?_, ?_⟩
      · intro x
        rw [hmemiff x]
        constructor
        · rintro (h0 | ⟨hin, hs⟩)
          · exact Or.inl h0
          · exact Or.inr ⟨List.mem_cons_of_mem _ hin, hs⟩
        · rintro (h0 | ⟨hin, hs⟩)
          · exact Or.inl h0
          · rcases List.mem_cons.mp hin with rfl | hin
            · exact Or.inl hmem
            · exact Or.inr ⟨hin, hs⟩
      · intro x hx hx0
        have hxa : x ≠ a := fun hxa => hx0 (hxa ▸ hmem)
        rw [hcount x hx hx0, List.count_cons]
        simp [hxa, Ne.symm hxa]
    · cases hf : env.fetchArtist a with
      | none =>
        have hsa : stepArtist env s0 a =
            .ok { s0 with fetchLog := s0.fetchLog ++ [a] } := by
          rw [stepArtist, if_neg hmem]
          dsimp only
          rw [hf]
        rw [hsa, exBind_ok] at h
        obtain ⟨htr, hit, d, hproc, himp, hnd, hdprop, hmemiff, hcount⟩ :=
          ih { s0 with fetchLog := s0.fetchLog ++ [a] } s h
        refine ⟨htr, hit, d, hproc, himp, hnd, hdprop, ?_, ?_⟩
        · intro x
          rw [hmemiff x]
          constructor
          · rintro (h0 | ⟨hin, hs⟩)
            · exact Or.inl h0
            · exact Or.inr ⟨List.mem_cons_of_mem _ hin, hs⟩
          · rintro (h0 | ⟨hin, hs⟩)
            · exact Or.inl h0
            · rcases List.mem_cons.mp hin with rfl | hin
              · rw [hf] at hs
                exact absurd hs (by simp)
              · exact Or.inr ⟨hin, hs⟩
        · intro x hx hx0
          rw [hcount x hx hx0]
          by_cases hxa : x = a
          · subst hxa
            rw [List.count_append, List.count_cons_self, List.count_cons_self,
              List.count_nil]
            omega
          · rw [List.count_append, List.count_cons_of_ne hxa,
              List.count_cons_of_ne hxa, List.count_nil]
            omega
      | some artist =>
        by_cases hok : env.storeArtistOk a = true
        · have hsa : stepArtist env s0 a = .ok
              { s0 with
                g := store_artist s0.g artist
                imported_artists := s0.imported_artists + 1
                processed := s0.processed ++ [a]
                fetchLog := s0.fetchLog ++ [a] } := by
            rw [stepArtist, if_neg hmem]
            dsimp only
            rw [hf]
            dsimp only
            rw [if_pos hok]
          rw [hsa, exBind_ok] at h
          obtain ⟨htr, hit, d, hproc, himp, hnd, hdprop, hmemiff, hcount⟩ :=
            ih _ s h
          dsimp only at htr hit hproc himp hdprop hmemiff hcount
          refine ⟨by rw [htr, store_artist_tracks], hit, a :: d, ?_, ?_, ?_, ?_, ?_, ?_⟩
          · rw [hproc, List.append_assoc, List.singleton_append]
          · rw [himp]
            simp only [List.length_cons]
            omega
          · refine List.nodup_cons.mpr ⟨?_, hnd⟩
            intro had
            have := (hdprop a had).1
            exact this (List.mem_append_right _ (List.mem_singleton.mpr rfl))
          · intro x hxd
            rcases List.mem_cons.mp hxd with rfl | hxd
            · exact ⟨hmem, by rw [hf]; rfl, hok⟩
            · obtain ⟨hx1, hx2, hx3⟩ := hdprop x hxd
              refine ⟨fun hx0 => hx1 (List.mem_append_left _ hx0), hx2, hx3⟩
          · intro x
            rw [hmemiff x]
            constructor
            · rintro (h0 | ⟨hin, hs⟩)
              · rcases List.mem_append.mp h0 with h0 | h0
                · exact Or.inl h0
                · have hxa : x = a := List.mem_singleton.mp h0
                  subst hxa
                  exact Or.inr ⟨List.mem_cons_self _ _, by rw [hf]; rfl⟩
              · exact Or.inr ⟨List.mem_cons_of_mem _ hin, hs⟩
            · rintro (h0 | ⟨hin, hs⟩)
              · exact Or.inl (List.mem_append_left _ h0)
              · rcases List.mem_cons.mp hin with rfl | hin
                · exact Or.inl
                    (List.mem_append_right _ (List.mem_singleton.mpr rfl))
                · exact Or.inr ⟨hin, hs⟩
          · intro x hx hx0
            have hxa : x ≠ a := by
              intro hxa
              rw [hxa, hf] at hx
              exact Option.noConfusion hx
            have hx0' : x ∉ s0.processed ++ [a] := by
              intro hc
              rcases List.mem_append.mp hc with hc | hc
              · exact hx0 hc
              · exact hxa (List.mem_singleton.mp hc)
            rw [hcount x hx hx0', List.count_append,
              List.count_cons_of_ne hxa, List.count_cons_of_ne hxa,
              List.count_nil]
            omega
        · have hsa : stepArtist env s0 a = .error () := by
            rw [stepArtist, if_neg hmem]
            dsimp only
            rw [hf]
            dsimp only
            rw [if_neg hok]
          rw [hsa, exBind_error] at h
          exact Except.noConfusion h

theorem allArtistIds_cons (t : Track) (tracks : List Track) :
    allArtistIds (t :: tracks) = t.artist_ids ++ allArtistIds tracks := by
  unfold allArtistIds
  rw [List.flatMap_cons]

/-- Characterization of a successful run of the track loop of
`import_spotify_data` (handlers.rs lines 116-180): every track is counted
and its node is present in the store, and `processed_artists` /
`artists_imported` evolve as in `foldArtists_spec`, over all performer ids
in encounter order. -/
theorem import_loop_spec (env : ImportEnv) :
    ∀ (tracks : List Track) (s0 s : ImportState),
      List.foldlM (stepTrack env) s0 tracks = .ok s →
      s.imported_tracks = s0.imported_tracks + tracks.length ∧
      (∀ x, x ∈ trackIds s0.g → x ∈ trackIds s.g) ∧
      (∀ t ∈ tracks, t.id ∈ trackIds s.g) ∧
      ∃ d, s.processed = s0.processed ++ d ∧
        s.imported_artists = s0.imported_artists + d.length ∧
        d.Nodup ∧
        (∀ a ∈ d, a ∉ s0.processed ∧ (env.fetchArtist a).isSome = true ∧
          env.storeArtistOk a = true) ∧
        (∀ a, a ∈ s.processed ↔ a ∈ s0.processed ∨
          (a ∈ allArtistIds tracks ∧ (env.fetchArtist a).isSome = true)) ∧
        (∀ a, env.fetchArtist a = none → a ∉ s0.processed →
          s.fetchLog.count a = s0.fetchLog.count a +
            (allArtistIds tracks).count a) := by
  intro tracks
  induction tracks with
  | nil =>
    intro s0 s h
    rw [List.foldlM_nil] at h
    have hs : s0 = s := Except.ok.inj h
    subst hs
    refine ⟨rfl, fun x hx => hx, by simp, [], by simp, by simp, by simp,
      by simp, ?_, by simp [allArtistIds]⟩
    intro a
    simp [allArtistIds]
  | cons t tracks ih =>
    intro s0 s h
    rw [List.foldlM_cons] at h
    by_cases hst : env.storeTrackOk t.id = true
    · have hstep : stepTrack env s0 t =
          List.foldlM (stepArtist env)
            { s0 with
              g := store_track s0.g t
              imported_tracks := s0.imported_tracks + 1 }
            t.artist_ids := by
        rw [stepTrack, if_pos hst]
      rw [hstep] at h
      cases hfa : List.foldlM (stepArtist env)
          { s0 with
            g := store_track s0.g t
            imported_tracks := s0.imported_tracks + 1 }
          t.artist_ids with
      | error e =>
        rw [hfa] at h
        cases e
        rw [exBind_error] at h
        exact Except.noConfusion h
      | ok s1 =>
        rw [hfa, exBind_ok] at h
        obtain ⟨htr1, hit1, d1, hproc1, himp1, hnd1, hdprop1, hmemiff1,
          hcount1⟩ := foldArtists_spec env t.artist_ids _ s1 hfa
        obtain ⟨hit2, hsup2, hall2, d2, hproc2, himp2, hnd2, hdprop2,
          hmemiff2, hcount2⟩ := ih s1 s h
        dsimp only at htr1 hit1 hproc1 himp1 hdprop1 hmemiff1 hcount1
        have hsup01 : ∀ x, x ∈ trackIds s0.g → x ∈ trackIds s1.g := by
          intro x hx
          have h1 : x ∈ trackIds (store_track s0.g t) :=
            (mem_trackIds_store_track s0.g t).2 x hx
          unfold trackIds at h1 ⊢
          rw [htr1]
          exact h1
        have htid1 : t.id ∈ trackIds s1.g := by
          have h1 := (mem_trackIds_store_track s0.g t).1
          unfold trackIds at h1 ⊢
          rw [htr1]
          exact h1
        refine ⟨?_, ?_, ?_, d1 ++ d2, ?_, ?_, ?_, ?_, ?_, ?_⟩
        · rw [hit2, hit1]
          simp only [List.length_cons]
          omega
        · intro x hx
          exact hsup2 x (hsup01 x hx)
        · intro t' ht'
          rcases List.mem_cons.mp ht' with rfl | ht'
          · exact hsup2 t'.id htid1
          · exact hall2 t' ht'
        · rw [hproc2, hproc1, List.append_assoc]
        · rw [himp2, himp1, List.length_append]
          omega
        · refine List.Nodup.append hnd1 hnd2 ?_
          intro x hx1 hx2
          have hmem1 : x ∈ s1.processed := by
            rw [hproc1]
            exact List.mem_append_right _ hx1
          exact (hdprop2 x hx2).1 hmem1
        · intro x hxd
          rcases List.mem_append.mp hxd with hxd | hxd
          · exact hdprop1 x hxd
          · obtain ⟨hx1, hx2, hx3⟩ := hdprop2 x hxd
            refine ⟨?_, hx2, hx3⟩
            intro hx0
            exact hx1 (by rw [hproc1]; exact List.mem_append_left _ hx0)
        · intro x
          rw [hmemiff2 x, hmemiff1 x, allArtistIds_cons]
          constructor
          · rintro ((h0 | ⟨hin, hs⟩) | ⟨hin, hs⟩)
            · exact Or.inl h0
            · exact Or.inr ⟨List.mem_append_left _ hin, hs⟩
            · exact Or.inr ⟨List.mem_append_right _ hin, hs⟩
          · rintro (h0 | ⟨hin, hs⟩)
            · exact Or.inl (Or.inl h0)
            · rcases List.mem_append.mp hin with hin | hin
              · exact Or.inl (Or.inr ⟨hin, hs⟩)
              · exact Or.inr ⟨hin, hs⟩
        · intro x hx hx0
          have hxd1 : x ∉ d1 := by
            intro hc
            have := (hdprop1 x hc).2.1
            rw [hx] at this
            exact Bool.noConfusion this
          have hx1 : x ∉ s1.processed := by
            rw [hproc1]
            intro hc
            rcases List.mem_append.mp hc with hc | hc
            · exact hx0 hc
            · exact hxd1 hc
          rw [hcount2 x hx hx1, hcount1 x hx hx0, allArtistIds_cons,
            List.count_append]
          omega
    · have hstep : stepTrack env s0 t = .error () := by
        rw [stepTrack, if_neg hst]
      rw [hstep, exBind_error] at h
      exact Except.noConfusion h

theorem foldArtists_isOk (env : ImportEnv)
    (hA : ∀ id, env.storeArtistOk id = true) :
    ∀ (ids : List String) (s0 : ImportState),
      ∃ s, List.foldlM (stepArtist env) s0 ids = .ok s := by
  intro ids
  induction ids with
  | nil =>
    intro s0
    exact ⟨s0, by rw [List.foldlM_nil]; rfl⟩
  | cons a ids ih =>
    intro s0
    have hstep : ∃ s1, stepArtist env s0 a = .ok s1 := by
      unfold stepArtist
      by_cases hmem : a ∈ s0.processed
      · rw [if_pos hmem]
        exact ⟨s0, rfl⟩
      · rw [if_neg hmem]
        dsimp only
        cases hf : env.fetchArtist a with
        | none => exact ⟨_, rfl⟩
        | some artist =>
          dsimp only
          rw [if_pos (hA a)]
          exact ⟨_, rfl⟩
    obtain ⟨s1, hs1⟩ := hstep
    obtain ⟨s2, hs2⟩ := ih s1
    refine ⟨s2, ?_⟩
    rw [List.foldlM_cons, hs1, exBind_ok, hs2]

theorem import_isOk (env : ImportEnv)
    (hT : ∀ id, env.storeTrackOk id = true)
    (hA : ∀ id, env.storeArtistOk id = true) :
    ∀ (tracks : List Track) (s0 : ImportState),
      ∃ s, List.foldlM (stepTrack env) s0 tracks = .ok s := by
  intro tracks
  induction tracks with
  | nil =>
    intro s0
    exact ⟨s0, by rw [List.foldlM_nil]; rfl⟩
  | cons t tracks ih =>
    intro s0
    obtain ⟨s1, hs1⟩ := foldArtists_isOk env hA t.artist_ids
      { s0 with
        g := store_track s0.g t
        imported_tracks := s0.imported_tracks + 1 }
    obtain ⟨s2, hs2⟩ := ih s1
    refine ⟨s2, ?_⟩
    rw [List.foldlM_cons, stepTrack, if_pos (hT t.id), hs1, exBind_ok, hs2]

/-! ## Theorems: C7, C9, C10 -/

/-- C10: throughout a (successful) import run, `processed_artists`
contains exactly the artist ids that were successfully fetched and stored
in that run — its members are ids whose fetch and store both succeeded, it
holds an id iff that id occurs among the run's performer ids with a
successful fetch, and its size always equals `artists_imported`; an id
whose fetch keeps failing is never marked as seen, so it is fetched once
per occurrence across the run's tracks (the fetch log counts every
listing).  Quantifying over all track lists covers every intermediate
state of a run, since the state after a prefix of tracks is the state
of running the import over that prefix. -/
theorem processed_artists_invariant (env : ImportEnv) (tracks : List Track)
    (g0 : GraphDB) (s : ImportState)
    (h : import_spotify_data env tracks g0 = .ok s) :
    s.imported_artists = s.processed.length ∧
      s.processed.Nodup ∧
      (∀ a ∈ s.processed, (env.fetchArtist a).isSome = true ∧
        env.storeArtistOk a = true) ∧
      (∀ a, a ∈ s.processed ↔
        a ∈ allArtistIds tracks ∧ (env.fetchArtist a).isSome = true) ∧
      (∀ a, env.fetchArtist a = none →
        a ∉ s.processed ∧
          s.fetchLog.count a = (allArtistIds tracks).count a) := by
  unfold import_spotify_data at h
  obtain ⟨hit, hsup, hall, d, hproc, himp, hnd, hdprop, hmemiff, hcount⟩ :=
    import_loop_spec env tracks (initState g0) s h
  have hpr : s.processed = d := by
    rw [hproc]
    rfl
  have hiff : ∀ a, a ∈ s.processed ↔
      a ∈ allArtistIds tracks ∧ (env.fetchArtist a).isSome = true := by
    intro a
    rw [hmemiff a]
    simp [initState]
  refine ⟨?_, ?_, ?_, hiff, ?_⟩
  · rw [himp, hpr]
    simp [initState]
  · rw [hpr]
    exact hnd
  · intro a ha
    rw [hpr] at ha
    exact ⟨(hdprop a ha).2.1, (hdprop a ha).2.2⟩
  · intro a ha
    constructor
    · intro hc
      have := ((hiff a).mp hc).2
      rw [ha] at this
      exact Bool.noConfusion this
    · have := hcount a ha (by simp [initState])
      rw [this]
      simp [initState]

/-- Witness for C10 on the concrete one-track import with `envAllOk`: the
run yields `sAfterOne`, whose dedup set `["a1"]` has exactly the size of
`artists_imported = 1`. -/
theorem processed_artists_invariant_witness :
    import_spotify_data envAllOk [trackEx] GraphDB.empty = .ok sAfterOne ∧
      sAfterOne.imported_artists = sAfterOne.processed.length :=
  ⟨by decide,
    (processed_artists_invariant envAllOk [trackEx] GraphDB.empty sAfterOne
      (by decide)).1⟩

/-- C7: if, during one import run over `tracks` with reliable storage, the
artist fetch fails exactly for the performer id `a0` (among `N` distinct
performer ids) and succeeds for the others, then the import completes
without a fatal error, every track is stored and counted
(`tracks_imported = |tracks|`), and exactly `N − 1` artists are counted in
`artists_imported` — the failed artist is absent from the dedup set, i.e.
from the set of stored artists. -/
theorem artist_fetch_failure_isolation (env : ImportEnv)
    (tracks : List Track) (g0 : GraphDB) (a0 : String)
    (hT : ∀ id, env.storeTrackOk id = true)
    (hA : ∀ id, env.storeArtistOk id = true)
    (hfail : ∀ a, env.fetchArtist a = none ↔ a = a0)
    (ha0 : a0 ∈ allArtistIds tracks) :
    ∃ s, import_spotify_data env tracks g0 = .ok s ∧
      s.imported_tracks = tracks.length ∧
      (∀ t ∈ tracks, t.id ∈ trackIds s.g) ∧
      s.imported_artists = (allArtistIds tracks).toFinset.card - 1 ∧
      a0 ∉ s.processed ∧
      (∀ a, a ∈ s.processed ↔ a ∈ allArtistIds tracks ∧ a ≠ a0) := by
  obtain ⟨s, hs⟩ := import_isOk env hT hA tracks (initState g0)
  obtain ⟨hit, hsup, hall, d, hproc, himp, hnd, hdprop, hmemiff, hcount⟩ :=
    import_loop_spec env tracks (initState g0) s hs
  have hpr : s.processed = d := by
    rw [hproc]
    rfl
  have hiff : ∀ a, a ∈ s.processed ↔
      a ∈ allArtistIds tracks ∧ a ≠ a0 := by
    intro a
    rw [hmemiff a]
    simp only [initState, List.not_mem_nil, false_or]
    constructor
    · rintro ⟨hin, hs'⟩
      refine ⟨hin, ?_⟩
      intro hc
      rw [(hfail a).mpr hc] at hs'
      exact Bool.noConfusion hs'
    · rintro ⟨hin, hne⟩
      refine ⟨hin, ?_⟩
      have : env.fetchArtist a ≠ none := fun hc => hne ((hfail a).mp hc)
      exact Option.isSome_iff_ne_none.mpr this
  refine ⟨s, hs, ?_, hall, ?_, ?_, hiff⟩
  · rw [hit]
    simp [initState]
  · have hdset : d.toFinset = (allArtistIds tracks).toFinset.erase a0 := by
      ext x
      rw [List.mem_toFinset, Finset.mem_erase, List.mem_toFinset]
      rw [← hpr, hiff x]
      constructor
      · rintro ⟨hin, hne⟩
        exact ⟨hne, hin⟩
      · rintro ⟨hne, hin⟩
        exact ⟨hin, hne⟩
    rw [himp]
    simp only [initState, Nat.zero_add]
    rw [← List.toFinset_card_of_nodup hnd, hdset,
      Finset.card_erase_of_mem (List.mem_toFinset.mpr ha0)]
  · intro hc
    exact ((hiff a0).mp hc).2 rfl

/-- Witness for C7: importing the one track `trackEx2` (performers `a1`,
`a2`) with the fetch failing exactly on `a2`: the track is stored, and
the import succeeds with `artists_imported = 2 − 1 = 1`. -/
theorem artist_fetch_failure_isolation_witness :
    "a2" ∈ allArtistIds [trackEx2] ∧
      ∃ s, import_spotify_data envFailA2 [trackEx2] GraphDB.empty = .ok s ∧
        s.imported_tracks = [trackEx2].length ∧
        (∀ t ∈ [trackEx2], t.id ∈ trackIds s.g) ∧
        s.imported_artists = (allArtistIds [trackEx2]).toFinset.card - 1 ∧
        "a2" ∉ s.processed ∧
        (∀ a, a ∈ s.processed ↔ a ∈ allArtistIds [trackEx2] ∧ a ≠ "a2") :=
  ⟨by decide,
    artist_fetch_failure_isolation envFailA2 [trackEx2] GraphDB.empty "a2"
      (fun _ => rfl) (fun _ => rfl)
      (by
        intro a
        by_cases h : a = "a2"
        · simp [envFailA2, h]
        · simp [envFailA2, h])
      (by decide)⟩

/-- C9 (code bug): importing the same one-track playlist twice into an
initially empty store is not idempotent on edge counts.  `store_track`
tries to create the `PERFORMED` edges *before* the track's artists are
fetched and stored (handlers.rs stores artists after `store_track`), so
the first run stores 1 track node and 1 artist node but 0 `PERFORMED`
edges; the second run, finding the artist node present, adds the edge —
the edge count changes from 0 to 1 even though both runs process identical
data (both runs report the same counters, 1 track and 1 artist). -/
theorem import_twice_changes_edge_counts :
    ((import_spotify_data envAllOk [trackEx] GraphDB.empty).map
        (fun s => (s.g.tracks.length, s.g.artists.length,
          s.g.performed.length, s.imported_tracks, s.imported_artists)) =
      .ok (1, 1, 0, 1, 1)) ∧
      (((import_spotify_data envAllOk [trackEx] GraphDB.empty).bind
          (fun s1 => import_spotify_data envAllOk [trackEx] s1.g)).map
          (fun s => (s.g.tracks.length, s.g.artists.length,
            s.g.performed.length, s.imported_tracks, s.imported_artists)) =
        .ok (1, 1, 1, 1, 1)) := by
  constructor
  · decide
  · decide

/-! ## Theorems: C8 -/

theorem mem_scoredCandidates {g : GraphDB} {seed_ids : List String}
    {p : TrackNode × ℚ} (hp : p ∈ scoredCandidates g seed_ids) :
    p.1 ∈ g.tracks ∧ seedsOther g seed_ids p.1 ≠ [] ∧
      p.2 = similarity_score g seed_ids p.1 := by
  unfold scoredCandidates at hp
  rcases List.mem_map.mp hp with ⟨t, ht, rfl⟩
  rcases List.mem_filter.mp ht with ⟨htg, hne⟩
  refine ⟨htg, ?_, rfl⟩
  intro hc
  rw [Bool.not_eq_true'] at hne
  rw [hc] at hne
  simp at hne

theorem mem_get_similar_tracks {g : GraphDB} {seed_ids : List String}
    {limit : Nat} {t : TrackNode}
    (ht : t ∈ get_similar_tracks g seed_ids limit) :
    ∃ p ∈ scoredCandidates g seed_ids, p.1 = t := by
  unfold get_similar_tracks at ht
  rcases List.mem_map.mp ht with ⟨p, hp, rfl⟩
  have hp1 : p ∈ ((scoredCandidates g seed_ids).insertionSort scoreLE).take
      limit := List.mem_of_mem_filter hp
  have hp2 : p ∈ (scoredCandidates g seed_ids).insertionSort scoreLE :=
    List.take_subset _ _ hp1
  have hp3 : p ∈ scoredCandidates g seed_ids :=
    (List.mem_insertionSort scoreLE).mp hp2
  exact ⟨p, hp3, rfl⟩

/-- C8 (amended): the similarity query's candidates are the stored tracks
having at least one matched seed with a *different* id — with a single
seed this is every track except the seed, but with several distinct
matched seeds the seed tracks themselves are candidates, scored against
the other seeds.  Each candidate's score is the mean over the seeds with
differing id of `|Δvalence| + |Δenergy| + |Δdanceability| + |Δtempo|/200`;
the rows are sorted ascending by score and truncated to `limit` (rows
without a `PERFORMED` edge are then dropped while resolving artists).  In
particular every returned track is a stored track with some differing-id
seed, and a returned candidate with score 0 is ranked before any returned
candidate with positive score. -/
theorem get_similar_tracks_spec (g : GraphDB) (seed_ids : List String)
    (limit : Nat) :
    (∀ t ∈ get_similar_tracks g seed_ids limit,
      t ∈ g.tracks ∧ ∃ s ∈ g.tracks, s.id ∈ seed_ids ∧ s.id ≠ t.id) ∧
      (∀ (i j : Nat) (hi : i < (get_similar_tracks g seed_ids limit).length)
        (hj : j < (get_similar_tracks g seed_ids limit).length),
        similarity_score g seed_ids
            ((get_similar_tracks g seed_ids limit).get ⟨i, hi⟩) = 0 →
        0 < similarity_score g seed_ids
            ((get_similar_tracks g seed_ids limit).get ⟨j, hj⟩) →
        i < j) := by
  constructor
  · intro t ht
    obtain ⟨p, hp, hpt⟩ := mem_get_similar_tracks ht
    obtain ⟨htg, hne, _⟩ := mem_scoredCandidates hp
    subst hpt
    refine ⟨htg, ?_⟩
    obtain ⟨s, hs⟩ := List.exists_mem_of_ne_nil _ hne
    rcases List.mem_filter.mp hs with ⟨hsn, hsid⟩
    rcases List.mem_filter.mp hsn with ⟨hsg, hsin⟩
    exact ⟨s, hsg, of_decide_eq_true hsin, of_decide_eq_true hsid⟩
  · intro i j hi hj hsi hsj
    set F := (((scoredCandidates g seed_ids).insertionSort scoreLE).take
      limit).filter (fun p => hasPerformer g p.1) with hF
    have hout : get_similar_tracks g seed_ids limit = F.map Prod.fst := rfl
    have hlen : (get_similar_tracks g seed_ids limit).length = F.length := by
      rw [hout, List.length_map]
    have hiF : i < F.length := by rw [← hlen]; exact hi
    have hjF : j < F.length := by rw [← hlen]; exact hj
    have hsubl : List.Sublist F
        ((scoredCandidates g seed_ids).insertionSort scoreLE) :=
      (List.filter_sublist _).trans (List.take_sublist _ _)
    have hpair : F.Pairwise scoreLE :=
      (List.sorted_insertionSort scoreLE _).sublist hsubl
    have hgeti : (get_similar_tracks g seed_ids limit).get ⟨i, hi⟩ =
        (F.get ⟨i, hiF⟩).1 := by
      simp only [List.get_eq_getElem, hout, List.getElem_map]
    have hgetj : (get_similar_tracks g seed_ids limit).get ⟨j, hj⟩ =
        (F.get ⟨j, hjF⟩).1 := by
      simp only [List.get_eq_getElem, hout, List.getElem_map]
    have hscore : ∀ (k : Nat) (hk : k < F.length),
        (F.get ⟨k, hk⟩).2 = similarity_score g seed_ids (F.get ⟨k, hk⟩).1 := by
      intro k hk
      have hmemF : F.get ⟨k, hk⟩ ∈ F := List.get_mem F _ _
      have hmemC : F.get ⟨k, hk⟩ ∈ scoredCandidates g seed_ids := by
        have h1 := List.mem_of_mem_filter hmemF
        have h2 := List.take_subset _ _ h1
        exact (List.mem_insertionSort scoreLE).mp h2
      exact (mem_scoredCandidates hmemC).2.2
    rw [hgeti, ← hscore i hiF] at hsi
    rw [hgetj, ← hscore j hjF] at hsj
    by_contra hij
    push_neg at hij
    rcases Nat.lt_or_ge j i with hji | hji
    · have hrel : scoreLE (F.get ⟨j, hjF⟩) (F.get ⟨i, hiF⟩) := by
        have := List.pairwise_iff_getElem.mp hpair j i hjF hiF hji
        simpa [List.get_eq_getElem] using this
      unfold scoreLE at hrel
      rw [hsi] at hrel
      exact absurd (lt_of_lt_of_le hsj hrel) (lt_irrefl 0)
    · have hij' : i = j := le_antisymm hji hij
      subst hij'
      rw [hsi] at hsj
      exact absurd hsj (lt_irrefl 0)

theorem mkNode_id (i : String) (v bpm : ℚ) : (mkNode i v bpm).id = i :=
  rfl

theorem mkNode_valence (i : String) (v bpm : ℚ) :
    (mkNode i v bpm).valence = v :=
  rfl

theorem mkNode_energy (i : String) (v bpm : ℚ) :
    (mkNode i v bpm).energy = v :=
  rfl

theorem mkNode_danceability (i : String) (v bpm : ℚ) :
    (mkNode i v bpm).danceability = v :=
  rfl

theorem mkNode_tempo (i : String) (v bpm : ℚ) :
    (mkNode i v bpm).tempo = bpm :=
  rfl

theorem gTwoSeeds_tracks :
    gTwoSeeds.tracks = [mkNode "A" 0 0, mkNode "B" 0 0] :=
  rfl

theorem gRanked_tracks :
    gRanked.tracks = [mkNode "S" 0 0, mkNode "B" 1 200, mkNode "Z" 0 0] :=
  rfl

theorem seedsOther_gTwoSeeds_A :
    seedsOther gTwoSeeds ["A", "B"] (mkNode "A" 0 0) = [mkNode "B" 0 0] := by
  simp [seedsOther, seedNodes, gTwoSeeds, List.filter_cons, List.filter_nil,
    mkNode_id]

theorem seedsOther_gTwoSeeds_B :
    seedsOther gTwoSeeds ["A", "B"] (mkNode "B" 0 0) = [mkNode "A" 0 0] := by
  simp [seedsOther, seedNodes, gTwoSeeds, List.filter_cons, List.filter_nil,
    mkNode_id]

theorem score_gTwoSeeds_A :
    similarity_score gTwoSeeds ["A", "B"] (mkNode "A" 0 0) = 0 := by
  rw [similarity_score, seedsOther_gTwoSeeds_A]
  norm_num [trackDist, mkNode_valence, mkNode_energy, mkNode_danceability,
    mkNode_tempo]

theorem score_gTwoSeeds_B :
    similarity_score gTwoSeeds ["A", "B"] (mkNode "B" 0 0) = 0 := by
  rw [similarity_score, seedsOther_gTwoSeeds_B]
  norm_num [trackDist, mkNode_valence, mkNode_energy, mkNode_danceability,
    mkNode_tempo]

/-- C8 counterexample: with the two stored tracks `A` and `B` both given
as seeds (store `gTwoSeeds`), the claim's candidate set "all stored tracks
excluding the seed tracks" is empty, so the query would have to return no
rows; the source's Cypher (`WHERE similar.id <> seed.id`) instead pairs
each seed with the *other* seed, and the query returns both seed tracks. -/
theorem get_similar_tracks_includes_seeds :
    (get_similar_tracks gTwoSeeds ["A", "B"] 3).map (fun t => t.id) =
      ["A", "B"] ∧
      "A" ∈ (get_similar_tracks gTwoSeeds ["A", "B"] 3).map (fun t => t.id) := by
  have h1 : scoredCandidates gTwoSeeds ["A", "B"] =
      [(mkNode "A" 0 0, 0), (mkNode "B" 0 0, 0)] := by
    rw [scoredCandidates]
    have hfil : gTwoSeeds.tracks.filter
        (fun t => !(seedsOther gTwoSeeds ["A", "B"] t).isEmpty) =
        [mkNode "A" 0 0, mkNode "B" 0 0] := by
      simp only [gTwoSeeds_tracks, List.filter_cons, List.filter_nil,
        seedsOther_gTwoSeeds_A, seedsOther_gTwoSeeds_B, List.isEmpty_cons,
        Bool.not_false, eq_self_iff_true, if_true]
    rw [hfil]
    simp only [List.map_cons, List.map_nil, score_gTwoSeeds_A,
      score_gTwoSeeds_B]
  have h2 : (scoredCandidates gTwoSeeds ["A", "B"]).insertionSort scoreLE =
      [(mkNode "A" 0 0, 0), (mkNode "B" 0 0, 0)] := by
    rw [h1]
    norm_num [List.insertionSort, List.orderedInsert, scoreLE]
  have hpA : hasPerformer gTwoSeeds (mkNode "A" 0 0) = true := by
    decide
  have hpB : hasPerformer gTwoSeeds (mkNode "B" 0 0) = true := by
    decide
  have h3 : get_similar_tracks gTwoSeeds ["A", "B"] 3 =
      [mkNode "A" 0 0, mkNode "B" 0 0] := by
    rw [get_similar_tracks, h2,
      List.take_of_length_le (by norm_num)]
    simp [List.filter_cons, List.filter_nil, hpA, hpB]
  rw [h3]
  constructor
  · simp [mkNode_id]
  · simp [mkNode_id]

theorem seedsOther_gRanked_Z :
    seedsOther gRanked ["S"] (mkNode "Z" 0 0) = [mkNode "S" 0 0] := by
  simp [seedsOther, seedNodes, gRanked, List.filter_cons, List.filter_nil,
    mkNode_id]

theorem seedsOther_gRanked_B :
    seedsOther gRanked ["S"] (mkNode "B" 1 200) = [mkNode "S" 0 0] := by
  simp [seedsOther, seedNodes, gRanked, List.filter_cons, List.filter_nil,
    mkNode_id]

theorem seedsOther_gRanked_S :
    seedsOther gRanked ["S"] (mkNode "S" 0 0) = [] := by
  simp [seedsOther, seedNodes, gRanked, List.filter_cons, List.filter_nil,
    mkNode_id]

theorem score_gRanked_Z :
    similarity_score gRanked ["S"] (mkNode "Z" 0 0) = 0 := by
  rw [similarity_score, seedsOther_gRanked_Z]
  norm_num [trackDist, mkNode_valence, mkNode_energy, mkNode_danceability,
    mkNode_tempo]

theorem score_gRanked_B :
    similarity_score gRanked ["S"] (mkNode "B" 1 200) = 4 := by
  rw [similarity_score, seedsOther_gRanked_B]
  norm_num [trackDist, mkNode_valence, mkNode_energy, mkNode_danceability,
    mkNode_tempo, abs_of_nonneg]

/-- Witness for C8's amended theorem on `gRanked` with the single seed
`S`: the candidate `Z` (identical feature vector, score 0) is returned at
index 0, before the candidate `B` (score 4) at index 1. -/
theorem get_similar_tracks_spec_witness :
    (get_similar_tracks gRanked ["S"] 3).map (fun t => t.id) = ["Z", "B"] ∧
      (0 : Nat) < 1 := by
  have h1 : scoredCandidates gRanked ["S"] =
      [(mkNode "B" 1 200, 4), (mkNode "Z" 0 0, 0)] := by
    rw [scoredCandidates]
    have hfil : gRanked.tracks.filter
        (fun t => !(seedsOther gRanked ["S"] t).isEmpty) =
        [mkNode "B" 1 200, mkNode "Z" 0 0] := by
      simp only [gRanked_tracks, List.filter_cons, List.filter_nil,
        seedsOther_gRanked_S, seedsOther_gRanked_B, seedsOther_gRanked_Z,
        List.isEmpty_cons, List.isEmpty_nil, Bool.not_false, Bool.not_true,
        eq_self_iff_true, if_true, Bool.false_eq_true, if_false]
    rw [hfil]
    simp only [List.map_cons, List.map_nil, score_gRanked_B, score_gRanked_Z]
  have h2 : (scoredCandidates gRanked ["S"]).insertionSort scoreLE =
      [(mkNode "Z" 0 0, 0), (mkNode "B" 1 200, 4)] := by
    rw [h1]
    norm_num [List.insertionSort, List.orderedInsert, scoreLE]
  have hpZ : hasPerformer gRanked (mkNode "Z" 0 0) = true := by
    decide
  have hpB : hasPerformer gRanked (mkNode "B" 1 200) = true := by
    decide
  have h3 : get_similar_tracks gRanked ["S"] 3 =
      [mkNode "Z" 0 0, mkNode "B" 1 200] := by
    rw [get_similar_tracks, h2,
      List.take_of_length_le (by norm_num)]
    simp [List.filter_cons, List.filter_nil, hpZ, hpB]
  have hi : (0 : Nat) < (get_similar_tracks gRanked ["S"] 3).length := by
    rw [h3]
    norm_num
  have hj : (1 : Nat) < (get_similar_tracks gRanked ["S"] 3).length := by
    rw [h3]
    norm_num
  have hz : (get_similar_tracks gRanked ["S"] 3).get ⟨0, hi⟩ =
      mkNode "Z" 0 0 := by
    simp only [List.get_eq_getElem, h3]
    rfl
  have hb : (get_similar_tracks gRanked ["S"] 3).get ⟨1, hj⟩ =
      mkNode "B" 1 200 := by
    simp only [List.get_eq_getElem, h3]
    rfl
  refine ⟨by rw [h3]; simp [mkNode_id], ?_⟩
  exact (get_similar_tracks_spec gRanked ["S"] 3).2 0 1 hi hj
    (by rw [hz, score_gRanked_Z])
    (by rw [hb, score_gRanked_B]; norm_num)

end SpotifyGraph
